import Mathlib

/-!
Verification of the FOB contest bot (`bot.py`) against its specification.

The development shallowly embeds the bot's persisted state and its
command handlers as Lean functions:

* SQLite rows become structures (`Entry`, `Contest`) and the key/value
  `settings` table becomes a record of `Option` fields (a `none` field
  models an absent key).
* Timestamps (`datetime.now(UTC)`, ISO deadline strings) are modelled as
  natural numbers; every operation that reads the clock takes `now` as an
  explicit argument.
* `random.choice(rows)` is modelled by an explicit oracle index `k`:
  the pick is `rows[k % rows.length]`, so each matching row is selectable.
* Discord I/O is reduced to the one channel the countdown task touches:
  a list of `(message id, content)` pairs, where `fetch_message` succeeds
  exactly when the id is present.
* The SQLite unique constraints of `contest_entries` (primary key
  `(contest_id, user_id)` and `UNIQUE (contest_id, system_name)`) are part
  of the model of `set_user_entry`: an insert or upsert-update that would
  violate the `(contest_id, system_name)` constraint returns an
  `Except.error`, the model of the raised `sqlite3.IntegrityError`
  (logged and re-raised by the `with_db` decorator).
* Python string methods used by `normalize_system_name` (`strip`,
  `split`, `" ".join`, `title`) are embedded character by character in
  their ASCII semantics, matching Lean core's ASCII `Char.toUpper` /
  `Char.toLower`.
-/

/-! ## Python string primitives used by `normalize_system_name` -/

/-- ASCII model of Python's whitespace class used by `str.strip()` /
`str.split()`: space, tab, newline, carriage return, vertical tab, form feed. -/
def pyIsSpace (c : Char) : Bool :=
  decide (c.toNat = 32 ∨ c.toNat = 9 ∨ c.toNat = 10 ∨ c.toNat = 13 ∨
          c.toNat = 11 ∨ c.toNat = 12)

/-- ASCII model of Python's "cased character" test used by `str.title()`:
for ASCII, exactly the letters are cased. -/
def pyCased (c : Char) : Bool :=
  decide ((65 ≤ c.toNat ∧ c.toNat ≤ 90) ∨ (97 ≤ c.toNat ∧ c.toNat ≤ 122))

/-- `str.strip()`: drop leading and trailing whitespace. -/
def pyStrip (s : List Char) : List Char :=
  ((s.dropWhile pyIsSpace).reverse.dropWhile pyIsSpace).reverse

/-- Accumulating tokenizer for `str.split()` (split on whitespace runs,
producing no empty words). `acc` holds the current word reversed. -/
def pySplitAux : List Char → List Char → List (List Char)
  | [], acc => if acc.isEmpty then [] else [acc.reverse]
  | c :: cs, acc =>
    if pyIsSpace c then
      if acc.isEmpty then pySplitAux cs [] else acc.reverse :: pySplitAux cs []
    else
      pySplitAux cs (c :: acc)

/-- `str.split()` with no separator argument. -/
def pySplit (s : List Char) : List (List Char) :=
  pySplitAux s []

/-- `" ".join(words)`: interleave single spaces. -/
def joinSpace : List (List Char) → List Char
  | [] => []
  | [w] => w
  | w :: ws => w ++ ' ' :: joinSpace ws

/-- `str.title()` as CPython implements it: walk the characters carrying
"previous character was cased"; a cased character after a non-cased one is
uppercased, a cased character after a cased one is lowercased. -/
def pyTitleAux : Bool → List Char → List Char
  | _, [] => []
  | prev, c :: cs =>
    (if prev then c.toLower else c.toUpper) :: pyTitleAux (pyCased c) cs

/-- `s.title()` on a whole string (starts with no preceding cased char). -/
def pyTitle (s : List Char) : List Char :=
  pyTitleAux false s

/-- `normalize_system_name` from `bot.py`:
`cleaned = " ".join(name.strip().split()); return cleaned.title()`. -/
def normalize_system_name (name : String) : String :=
  ⟨pyTitle (joinSpace (pySplit (pyStrip name.data)))⟩

/-! ## Allow-list -/

/-- `ALLOWED_FOB_SYSTEMS_RAW` from `bot.py`, verbatim. -/
def ALLOWED_FOB_SYSTEMS_RAW : List String :=
  ["Aivonen", "Akidagi", "Aldranette", "Alparena", "Asakai", "Athounon",
   "Aubenall", "Brarel", "Deven", "Eha", "Enaluri", "Esesier", "Evaulon",
   "Frarie", "Harroule", "Hevrice", "Heydieles", "Hykanima", "Iges",
   "Immuri", "Ikoskio", "Intaki", "Iralaja", "Jovainnon", "Kedama",
   "Kehjari", "Kinakka", "Luminaire", "Mantenault", "Martoh", "Melmaniel",
   "Mercomesier", "Murethand", "Mushikegi", "Nikkishina", "Nisuwa",
   "Notoras", "Ocix", "Odamia", "Oicx", "Oinasiken", "Okagaiken",
   "Old Man Star", "Olletta", "Ostingele", "Oto", "Prism", "Pynekastoh",
   "Raihbaka", "Renarelle", "Reschard", "Sarenemi", "Sujarento", "Tama",
   "Tannolen", "Vaaralen", "Vey", "Vlillirier"]

/-- `ALLOWED_FOB_SYSTEMS`: the raw names, normalized once (the Python set
is modelled as a list queried by membership). -/
def ALLOWED_FOB_SYSTEMS : List String :=
  ALLOWED_FOB_SYSTEMS_RAW.map normalize_system_name

/-- `is_allowed_fob_system`: normalize, then test membership. -/
def is_allowed_fob_system (name : String) : Bool :=
  ALLOWED_FOB_SYSTEMS.contains (normalize_system_name name)

/-! ## Persisted store -/

/-- A row of the `contest_entries` table. -/
structure Entry where
  contest_id : Nat
  user_id : Nat
  system_name : String
  entered_at : Nat
deriving Repr, DecidableEq

/-- A row of the `contests` table. -/
structure Contest where
  id : Nat
  opened_at : Nat
  winner_user_id : Option Nat
  winner_system : Option String
deriving Repr, DecidableEq

/-- The `settings` key/value table; a `none` field models an absent key.
`contest_open` / `winner_picked` are stored as the strings "1"/"0" in the
database and only ever written as such, so they are modelled as `Bool`;
`fob_system` keeps its raw string value because `newcontest` clears it by
writing the empty string rather than deleting the key. -/
structure Settings where
  current_contest_id : Option Nat
  contest_open : Option Bool
  winner_picked : Option Bool
  fob_system : Option String
  entry_deadline : Option Nat
  countdown_message_id : Option Nat
  countdown_channel_id : Option Nat
  prizes_text : Option String
deriving Repr, DecidableEq

/-- The whole SQLite database `contest.db`. -/
structure DB where
  contests : List Contest
  entries : List Entry
  settings : Settings
deriving Repr, DecidableEq

/-- Storage-level failures surfaced by the store: the model of an uncaught
`sqlite3.IntegrityError` from a unique-constraint violation, which
`with_db` logs and re-raises. -/
inductive DBError where
  | uniqueConstraint
deriving Repr, DecidableEq

/-! ## Settings helpers (`bot.py` helper functions) -/

/-- `get_current_contest_id`: missing key defaults to 1. -/
def get_current_contest_id (db : DB) : Nat :=
  db.settings.current_contest_id.getD 1

/-- `is_contest_open`: missing key defaults to `True`; otherwise the row
value compared against "1". -/
def is_contest_open (db : DB) : Bool :=
  db.settings.contest_open.getD true

/-- `set_contest_open`: upsert of the `contest_open` key. -/
def set_contest_open (db : DB) (open_flag : Bool) : DB :=
  { db with settings := { db.settings with contest_open := some open_flag } }

/-- `is_winner_picked`: missing key defaults to `False`. -/
def is_winner_picked (db : DB) : Bool :=
  db.settings.winner_picked.getD false

/-- `set_winner_picked`: upsert of the `winner_picked` key. -/
def set_winner_picked (db : DB) (picked : Bool) : DB :=
  { db with settings := { db.settings with winner_picked := some picked } }

/-- `get_fob_system`. -/
def get_fob_system (db : DB) : Option String :=
  db.settings.fob_system

/-- `set_fob_system`: upsert of the `fob_system` key. -/
def set_fob_system (db : DB) (system_name : String) : DB :=
  { db with settings := { db.settings with fob_system := some system_name } }

/-- `get_entry_deadline`. -/
def get_entry_deadline (db : DB) : Option Nat :=
  db.settings.entry_deadline

/-- `set_entry_deadline`: upsert, or key deletion when given `None`. -/
def set_entry_deadline (db : DB) (deadline : Option Nat) : DB :=
  { db with settings := { db.settings with entry_deadline := deadline } }

/-- `is_past_deadline`: no deadline means not past; otherwise
`now >= deadline`. -/
def is_past_deadline (db : DB) (now : Nat) : Bool :=
  match get_entry_deadline db with
  | none => false
  | some d => decide (d ≤ now)

/-- `get_countdown_message_id`. -/
def get_countdown_message_id (db : DB) : Option Nat :=
  db.settings.countdown_message_id

/-- `set_countdown_message_id`: upsert, or key deletion when given `None`. -/
def set_countdown_message_id (db : DB) (message_id : Option Nat) : DB :=
  { db with settings := { db.settings with countdown_message_id := message_id } }

/-- `get_countdown_channel_id`. -/
def get_countdown_channel_id (db : DB) : Option Nat :=
  db.settings.countdown_channel_id

/-- `set_countdown_channel_id`: upsert of the `countdown_channel_id` key. -/
def set_countdown_channel_id (db : DB) (channel_id : Nat) : DB :=
  { db with settings := { db.settings with countdown_channel_id := some channel_id } }

/-- `set_prizes_text`: upsert of the `prizes_text` key. -/
def set_prizes_text (db : DB) (text : String) : DB :=
  { db with settings := { db.settings with prizes_text := some text } }

/-- `get_user_entry`: the system name this user entered for the current
contest, if any. -/
def get_user_entry (db : DB) (user_id : Nat) : Option String :=
  (db.entries.find? fun e =>
    e.contest_id == get_current_contest_id db && e.user_id == user_id).map
    (·.system_name)

/-- `is_system_taken`: some entry of the current contest already has this
exact system name. -/
def is_system_taken (db : DB) (system_name : String) : Bool :=
  db.entries.any fun e =>
    e.contest_id == get_current_contest_id db && e.system_name == system_name

/-- `set_user_entry`: `INSERT ... ON CONFLICT(contest_id, user_id) DO
UPDATE`. The upsert resolves a `(contest_id, user_id)` conflict by
updating that row; a `(contest_id, system_name)` conflict with a
*different* user's row has no conflict clause, so SQLite raises — the
model returns `Except.error`. -/
def set_user_entry (db : DB) (now user_id : Nat) (system_name : String) :
    Except DBError DB :=
  let cid := get_current_contest_id db
  if db.entries.any fun e =>
      e.contest_id == cid && e.system_name == system_name && e.user_id != user_id
  then .error .uniqueConstraint
  else if db.entries.any fun e => e.contest_id == cid && e.user_id == user_id then
    .ok { db with
          entries := db.entries.map fun e =>
            if e.contest_id == cid && e.user_id == user_id then
              { e with system_name := system_name, entered_at := now }
            else e }
  else
    .ok { db with
          entries := db.entries ++
            [{ contest_id := cid, user_id := user_id,
               system_name := system_name, entered_at := now }] }

/-! ## The Discord channel touched by the countdown task -/

/-- Content of a channel message, as far as the countdown task is
concerned. -/
inductive CMsg where
  | countdown (contestId days hours minutes deadlineTs : Nat)
  | deadlineReached
deriving Repr, DecidableEq

/-- A channel: the list of (message id, content) pairs, in send order. -/
structure Channel where
  messages : List (Nat × CMsg)
deriving Repr, DecidableEq

/-- `channel.fetch_message(mid)`: succeeds exactly when the id exists
(`discord.NotFound` / `HTTPException` otherwise). -/
def Channel.fetch (ch : Channel) (mid : Nat) : Option CMsg :=
  (ch.messages.find? fun p => p.1 == mid).map (·.2)

/-- `message.edit(...)`: replace the content stored under `mid`. -/
def Channel.edit (ch : Channel) (mid : Nat) (m : CMsg) : Channel :=
  ⟨ch.messages.map fun p => if p.1 == mid then (p.1, m) else p⟩

/-- `channel.send(...)`: append a new message under a fresh id. -/
def Channel.send (ch : Channel) (mid : Nat) (m : CMsg) : Channel :=
  ⟨ch.messages ++ [(mid, m)]⟩

/-! ## Commands and the countdown task

Each handler is a function of the database (plus the clock and, where the
code touches Discord, the channel). Admin permission checks
(`is_contest_admin`) are modelled by an `isAdmin : Bool` argument.
Response messages are modelled by outcome inductives. -/

/-- The distinct responses of the `/enter` pipeline. -/
inductive EnterOutcome where
  | invalidSystem
  | contestClosed
  | deadlinePassed
  | duplicateUser (previous : String)
  | systemTaken (system : String)
  | success (system : String)
deriving Repr, DecidableEq

/-- The write step of `/enter` (its step 5, the spec's step 6): call
`set_user_entry` and report success. There is no `try/except` around it in
`enter`, so a storage error propagates as `Except.error`. -/
def enter_write_step (db : DB) (now user_id : Nat) (system_norm : String) :
    Except DBError (EnterOutcome × DB) :=
  match set_user_entry db now user_id system_norm with
  | .ok db' => .ok (.success system_norm, db')
  | .error e => .error e

/-- The `/enter` command (`async def enter`), checks in source order:
allow-list, open flag, deadline, duplicate user (echoing the previous
guess), system taken, then the upsert. -/
def enter (db : DB) (now user_id : Nat) (system : String) :
    Except DBError (EnterOutcome × DB) :=
  let system_norm := normalize_system_name system
  if !is_allowed_fob_system system_norm then .ok (.invalidSystem, db)
  else if !is_contest_open db then .ok (.contestClosed, db)
  else if is_past_deadline db now then .ok (.deadlinePassed, db)
  else
    match get_user_entry db user_id with
    | some previous => .ok (.duplicateUser previous, db)
    | none =>
      if is_system_taken db system_norm then .ok (.systemTaken system_norm, db)
      else enter_write_step db now user_id system_norm

/-- Responses of `/endcontest` (guards in `endcontest`, then
`EndContestModal.on_submit`). -/
inductive EndOutcome where
  | notAdmin
  | alreadyHasWinner
  | alreadyClosed
  | noEntries
  | invalidSystem
  | noWinner (system : String)
  | winner (user_id : Nat) (system : String)
deriving Repr, DecidableEq

/-- A default entry for total indexing; `endcontest` only indexes into a
list it has shown nonempty. -/
def defaultEntry : Entry :=
  { contest_id := 0, user_id := 0, system_name := "", entered_at := 0 }

/-- `/endcontest` followed by `EndContestModal.on_submit`, as one
function: guards (admin, winner already picked, already closed, zero
entries), then normalize and validate the supplied FOB system, close the
contest, record the FOB system, collect the entries of this contest whose
`system_name` equals it, and either finish with no winner or pick
`rows[k % rows.length]` (the model of `random.choice(rows)`), set
`winner_picked` and write the winner onto this contest's row. -/
def endcontest (db : DB) (isAdmin : Bool) (fob_input : String) (k : Nat) :
    EndOutcome × DB :=
  if !isAdmin then (.notAdmin, db)
  else if is_winner_picked db then (.alreadyHasWinner, db)
  else if !is_contest_open db then (.alreadyClosed, db)
  else
    let contest_id := get_current_contest_id db
    if (db.entries.filter fun e => e.contest_id == contest_id).length == 0 then
      (.noEntries, db)
    else
      let system_norm := normalize_system_name fob_input
      if !is_allowed_fob_system system_norm then (.invalidSystem, db)
      else
        let db1 := set_contest_open db false
        let db2 := set_fob_system db1 system_norm
        let rows := db2.entries.filter fun e =>
          e.contest_id == contest_id && e.system_name == system_norm
        if rows.isEmpty then (.noWinner system_norm, db2)
        else
          let w := rows.getD (k % rows.length) defaultEntry
          let db3 := set_winner_picked db2 true
          let db4 :=
            { db3 with
              contests := db3.contests.map fun c =>
                if c.id == contest_id then
                  { c with winner_user_id := some w.user_id,
                           winner_system := some system_norm }
                else c }
          (.winner w.user_id system_norm, db4)

/-- Responses of `/opencontest`. -/
inductive OpenOutcome where
  | notAdmin
  | alreadyHasWinner
  | alreadyOpen
  | reopened
deriving Repr, DecidableEq

/-- `/opencontest`: admin, no winner yet, currently closed — then set the
open flag and nothing else. -/
def opencontest (db : DB) (isAdmin : Bool) : OpenOutcome × DB :=
  if !isAdmin then (.notAdmin, db)
  else if is_winner_picked db then (.alreadyHasWinner, db)
  else if is_contest_open db then (.alreadyOpen, db)
  else (.reopened, set_contest_open db true)

/-- Responses of `/newcontest` (the transaction; the deadline modal that
follows is a separate interaction, modelled by `deadline_modal_submit`). -/
inductive NewOutcome where
  | notAdmin
  | started (newId : Nat)
deriving Repr, DecidableEq

/-- The id `AUTOINCREMENT` assigns to the inserted contest row: one more
than the largest id ever used (no row of `contests` is ever deleted, so
that is one more than the current maximum). -/
def nextContestId (db : DB) : Nat :=
  (db.contests.map Contest.id).foldr Nat.max 0 + 1

/-- `/newcontest`: no guard beyond admin. One committed transaction:
close the current contest, insert a fresh contest row, clear `fob_system`
(by writing the empty string), delete `entry_deadline` and the countdown
tracking keys, point `current_contest_id` at the new row, reopen, and
reset `winner_picked`. -/
def newcontest (db : DB) (isAdmin : Bool) (now : Nat) : NewOutcome × DB :=
  if !isAdmin then (.notAdmin, db)
  else
    let newId := nextContestId db
    let db1 := set_contest_open db false
    let db2 := { db1 with
                 contests := db1.contests ++
                   [{ id := newId, opened_at := now,
                      winner_user_id := none, winner_system := none }] }
    let db3 := set_fob_system db2 ""
    let db4 := set_entry_deadline db3 none
    let db5 := set_countdown_message_id db4 none
    let db6 := { db5 with
                 settings := { db5.settings with countdown_channel_id := none } }
    let db7 := { db6 with
                 settings := { db6.settings with current_contest_id := some newId } }
    let db8 := set_contest_open db7 true
    let db9 := set_winner_picked db8 false
    (.started newId, db9)

/-- `DeadlineModal.on_submit` (shown right after `/newcontest`): reject a
deadline not in the future, else store it, remember the channel, delete a
previously tracked countdown message and clear its id. -/
def deadline_modal_submit (db : DB) (ch : Channel) (now deadline channel_id : Nat) :
    DB × Channel :=
  if deadline ≤ now then (db, ch)
  else
    let db1 := set_entry_deadline db (some deadline)
    let db2 := set_countdown_channel_id db1 channel_id
    match get_countdown_message_id db2 with
    | some mid =>
      let ch' := if (ch.fetch mid).isSome then ⟨ch.messages.filter fun p => p.1 != mid⟩ else ch
      (set_countdown_message_id db2 none, ch')
    | none => (db2, ch)

/-- `/setdeadline`: admin and no winner picked; store the deadline and the
countdown channel. -/
def setdeadline (db : DB) (isAdmin : Bool) (deadline channel_id : Nat) : DB :=
  if !isAdmin then db
  else if is_winner_picked db then db
  else set_countdown_channel_id (set_entry_deadline db (some deadline)) channel_id

/-- `/cleardeadline`: admin only; delete the deadline, delete a tracked
countdown message and clear its id. -/
def cleardeadline (db : DB) (ch : Channel) (isAdmin : Bool) : DB × Channel :=
  if !isAdmin then (db, ch)
  else
    let db1 := set_entry_deadline db none
    match get_countdown_message_id db1 with
    | some mid =>
      let ch' := if (ch.fetch mid).isSome then ⟨ch.messages.filter fun p => p.1 != mid⟩ else ch
      (set_countdown_message_id db1 none, ch')
    | none => (db1, ch)

/-- Responses of `/listentries`. -/
inductive ListEntriesOutcome where
  | notAdmin
  | contestClosed
  | noEntries
  | listing (rows : List (Nat × String))
deriving Repr, DecidableEq

/-- `/listentries`: admin guard, then refuse outright while the contest is
closed; only an open contest has its entries read and dumped
(`ORDER BY user_id`). -/
def listentries (db : DB) (isAdmin : Bool) : ListEntriesOutcome :=
  if !isAdmin then .notAdmin
  else if !is_contest_open db then .contestClosed
  else
    let contest_id := get_current_contest_id db
    let rows :=
      ((db.entries.filter fun e => e.contest_id == contest_id).map fun e =>
        (e.user_id, e.system_name)).mergeSort fun a b => a.1 ≤ b.1
    if rows.isEmpty then .noEntries else .listing rows

/-- One tick of the `update_countdown` background task. `freshId` is the
id Discord would assign to a newly sent message. The enclosing
`try/except` swallows errors, the channel is assumed resolvable (channel
lookup is pure I/O), and `fetch_message` succeeds exactly when the id is
present in the channel. -/
def update_countdown (db : DB) (ch : Channel) (now freshId : Nat) :
    DB × Channel :=
  match get_entry_deadline db with
  | none => (db, ch)
  | some deadline =>
    let message_id := get_countdown_message_id db
    if deadline ≤ now then
      match message_id with
      | some mid =>
        match ch.fetch mid with
        | some _ => (set_countdown_message_id db none, ch.edit mid .deadlineReached)
        | none => (db, ch)
      | none => (db, ch)
    else
      let rem := deadline - now
      let days := rem / 86400
      let hours := rem % 86400 / 3600
      let minutes := rem % 86400 % 3600 / 60
      let embed := CMsg.countdown (get_current_contest_id db) days hours minutes deadline
      match message_id with
      | some mid =>
        match ch.fetch mid with
        | some _ => (db, ch.edit mid embed)
        | none => (set_countdown_message_id db (some freshId), ch.send freshId embed)
      | none => (set_countdown_message_id db (some freshId), ch.send freshId embed)

/-! ## The action step relation (for the frame property on `contest_open`) -/

/-- Every state-mutating operation of the bot, with its arguments. The
read-only commands (`/myguess`, `/conteststatus`, `/contesthistory`,
`/pastwinners`, `/allowedsystems`, `/prizes`, `/rules`, `/backupdb`) never
write the store and are omitted. -/
inductive BotAction where
  | enterA (now user_id : Nat) (system : String)
  | tickA (now freshId : Nat)
  | setdeadlineA (isAdmin : Bool) (deadline channel_id : Nat)
  | cleardeadlineA (isAdmin : Bool)
  | deadlineModalA (now deadline channel_id : Nat)
  | setprizesA (text : String)
  | endcontestA (isAdmin : Bool) (fob : String) (k : Nat)
  | opencontestA (isAdmin : Bool)
  | newcontestA (isAdmin : Bool) (now : Nat)
deriving Repr, DecidableEq

/-- Which actions are the explicit admin lifecycle commands
(`endcontest`, `opencontest`, `newcontest`). -/
def BotAction.isLifecycleAdmin : BotAction → Bool
  | .endcontestA .. => true
  | .opencontestA .. => true
  | .newcontestA .. => true
  | _ => false

/-- Run one action against the store and the channel. A storage error
from `/enter` leaves the database unchanged (the failed `INSERT` is not
committed). -/
def stepAction (a : BotAction) (db : DB) (ch : Channel) : DB × Channel :=
  match a with
  | .enterA now uid sys =>
    match enter db now uid sys with
    | .ok (_, db') => (db', ch)
    | .error _ => (db, ch)
  | .tickA now freshId => update_countdown db ch now freshId
  | .setdeadlineA isAdmin d cid => (setdeadline db isAdmin d cid, ch)
  | .cleardeadlineA isAdmin => cleardeadline db ch isAdmin
  | .deadlineModalA now d cid => deadline_modal_submit db ch now d cid
  | .setprizesA text => (set_prizes_text db text, ch)
  | .endcontestA isAdmin fob k => ((endcontest db isAdmin fob k).2, ch)
  | .opencontestA isAdmin => ((opencontest db isAdmin).2, ch)
  | .newcontestA isAdmin now => ((newcontest db isAdmin now).2, ch)

/-! ## Concrete states used by witnesses -/

/-- The bootstrap contest row. -/
def contest1 : Contest := { id := 1, opened_at := 0, winner_user_id := none, winner_system := none }

/-- Settings of a fresh open contest (as `init_db` bootstraps them, with
no deadline and no countdown tracking). -/
def settings0 : Settings :=
  { current_contest_id := some 1, contest_open := some true,
    winner_picked := some false, fob_system := none, entry_deadline := none,
    countdown_message_id := none, countdown_channel_id := none,
    prizes_text := none }

/-- A fresh open contest with no entries. -/
def db0 : DB := { contests := [contest1], entries := [], settings := settings0 }

/-- User 100's entry "Tama" in contest 1. -/
def entryTama : Entry :=
  { contest_id := 1, user_id := 100, system_name := "Tama", entered_at := 3 }

/-- An open contest holding one entry ("Tama" by user 100). -/
def db1 : DB := { contests := [contest1], entries := [entryTama], settings := settings0 }

/-- The same contest, closed with no winner. -/
def dbClosed : DB :=
  { contests := [contest1], entries := [entryTama],
    settings := { settings0 with contest_open := some false } }

/-- An open contest whose entry deadline (time 50) is set. -/
def dbDeadline : DB :=
  { contests := [contest1], entries := [],
    settings := { settings0 with entry_deadline := some 50 } }

/-- Deadline set and a countdown message (id 7) tracked. -/
def dbCountdown : DB :=
  { contests := [contest1], entries := [],
    settings := { settings0 with entry_deadline := some 50,
                                 countdown_message_id := some 7,
                                 countdown_channel_id := some 99 } }

/-- A channel holding the tracked countdown message. -/
def chCountdown : Channel := ⟨[(7, .countdown 1 0 0 5 50)]⟩

/-! ## Helper lemmas -/

theorem mem_le_foldr_max {x : Nat} : ∀ {l : List Nat}, x ∈ l → x ≤ l.foldr Nat.max 0 := by
  intro l h
  induction l with
  | nil => cases h
  | cons a t ih =>
    rcases List.mem_cons.mp h with rfl | h2
    · exact Nat.le_max_left _ _
    · exact Nat.le_trans (ih h2) (Nat.le_max_right _ _)


/-- `set_user_entry` touches only the `contest_entries` table. -/
theorem settings_of_set_user_entry {db : DB} {now uid : Nat} {sys : String} {db' : DB}
    (h : set_user_entry db now uid sys = .ok db') : db'.settings = db.settings := by
  simp only [set_user_entry] at h
  by_cases h1 : (db.entries.any fun e =>
      e.contest_id == get_current_contest_id db && e.system_name == sys &&
      e.user_id != uid) = true
  · simp only [h1, if_true] at h
    cases h
  · rw [Bool.not_eq_true] at h1
    simp only [h1, Bool.false_eq_true, if_false] at h
    by_cases h2 : (db.entries.any fun e =>
        e.contest_id == get_current_contest_id db && e.user_id == uid) = true
    · simp only [h2, if_true] at h
      cases h
      rfl
    · rw [Bool.not_eq_true] at h2
      simp only [h2, Bool.false_eq_true, if_false] at h
      cases h
      rfl

/-- A successful `/enter` touches only the `contest_entries` table. -/
theorem settings_of_enter {db : DB} {now uid : Nat} {sys : String}
    {o : EnterOutcome} {db' : DB}
    (h : enter db now uid sys = .ok (o, db')) : db'.settings = db.settings := by
  simp only [enter] at h
  by_cases h0 : is_allowed_fob_system (normalize_system_name sys) = true
  case neg =>
    rw [Bool.not_eq_true] at h0
    simp only [h0, Bool.not_false, if_true] at h
    cases h; rfl
  simp only [h0, Bool.not_true, Bool.false_eq_true, if_false] at h
  by_cases h1 : is_contest_open db = true
  case neg =>
    rw [Bool.not_eq_true] at h1
    simp only [h1, Bool.not_false, if_true] at h
    cases h; rfl
  simp only [h1, Bool.not_true, Bool.false_eq_true, if_false] at h
  by_cases h2 : is_past_deadline db now = true
  case pos =>
    simp only [h2, if_true] at h
    cases h; rfl
  rw [Bool.not_eq_true] at h2
  simp only [h2, Bool.false_eq_true, if_false] at h
  revert h
  cases hu : get_user_entry db uid with
  | some previous => intro h; cases h; rfl
  | none =>
    intro h
    by_cases h3 : is_system_taken db (normalize_system_name sys) = true
    · simp only [h3, if_true] at h
      cases h; rfl
    · rw [Bool.not_eq_true] at h3
      simp only [h3, Bool.false_eq_true, if_false, enter_write_step] at h
      revert h
      cases hse : set_user_entry db now uid (normalize_system_name sys) with
      | ok dbW => intro h; cases h; exact settings_of_set_user_entry hse
      | error e => intro h; cases h

/-- A countdown tick either leaves the database unchanged or only
rewrites the tracked `countdown_message_id` key. -/
theorem update_countdown_db_shape (db : DB) (ch : Channel) (now fid : Nat) :
    (update_countdown db ch now fid).1 = db ∨
    ∃ v, (update_countdown db ch now fid).1 = set_countdown_message_id db v := by
  simp only [update_countdown]
  split
  · left; rfl
  · split
    · split
      · split
        · right; exact ⟨none, rfl⟩
        · left; rfl
      · left; rfl
    · split
      · split
        · left; rfl
        · right; exact ⟨some fid, rfl⟩
      · right; exact ⟨some fid, rfl⟩

/-- C4: `newcontest` by an admin always succeeds, assigns a strictly
larger contest id, resets the lifecycle settings and clears the deadline
and countdown keys, and leaves every stored entry untouched. -/
theorem newcontest_fresh_contest (db : DB) (now : Nat) :
    (newcontest db true now).1 = .started (nextContestId db) ∧
    (∀ c ∈ db.contests, c.id < nextContestId db) ∧
    (newcontest db true now).2.contests =
      db.contests ++ [{ id := nextContestId db, opened_at := now,
                        winner_user_id := none, winner_system := none }] ∧
    (newcontest db true now).2.entries = db.entries ∧
    (newcontest db true now).2.settings =
      { current_contest_id := some (nextContestId db),
        contest_open := some true,
        winner_picked := some false,
        fob_system := some "",
        entry_deadline := none,
        countdown_message_id := none,
        countdown_channel_id := none,
        prizes_text := db.settings.prizes_text } := by
  refine ⟨rfl, ?_, rfl, rfl, rfl⟩
  intro c hc
  have : c.id ∈ db.contests.map Contest.id := List.mem_map_of_mem _ hc
  have := mem_le_foldr_max this
  unfold nextContestId
  omega

/-- C8: reopening a closed, winnerless contest sets the open flag and
changes nothing else in the store. -/
theorem opencontest_sets_only_open_flag (db : DB)
    (hw : is_winner_picked db = false) (hc : is_contest_open db = false) :
    opencontest db true =
      (.reopened, { db with settings := { db.settings with contest_open := some true } }) := by
  simp [opencontest, hw, hc, set_contest_open]

theorem opencontest_sets_only_open_flag_witness :
    opencontest dbClosed true =
      (.reopened, { dbClosed with
                    settings := { dbClosed.settings with contest_open := some true } }) :=
  opencontest_sets_only_open_flag dbClosed rfl rfl

/-- C10: while the contest is closed, `/listentries` answers with the
closed refusal (whatever the entries table holds); a listing is produced
only when the open flag is true. -/
theorem listentries_closed_refusal (db : DB) :
    (is_contest_open db = false → listentries db true = .contestClosed) ∧
    (∀ rows, listentries db true = .listing rows → is_contest_open db = true) := by
  constructor
  · intro h
    simp [listentries, h]
  · intro rows h
    by_cases hop : is_contest_open db = true
    · exact hop
    · rw [Bool.not_eq_true] at hop
      simp [listentries, hop] at h

theorem listentries_closed_refusal_witness :
    listentries dbClosed true = .contestClosed :=
  (listentries_closed_refusal dbClosed).1 rfl

/-- C1: the `/enter` pipeline checks its five conditions in source order,
short-circuits at the first failure leaving the store unchanged, and only
when all pass is the entry stored for `(current contest, user)`. -/
theorem enter_validation_order (db : DB) (now uid : Nat) (raw : String) :
    (is_allowed_fob_system (normalize_system_name raw) = false →
       enter db now uid raw = .ok (.invalidSystem, db)) ∧
    (is_allowed_fob_system (normalize_system_name raw) = true →
     is_contest_open db = false →
       enter db now uid raw = .ok (.contestClosed, db)) ∧
    (is_allowed_fob_system (normalize_system_name raw) = true →
     is_contest_open db = true →
     is_past_deadline db now = true →
       enter db now uid raw = .ok (.deadlinePassed, db)) ∧
    (∀ previous,
     is_allowed_fob_system (normalize_system_name raw) = true →
     is_contest_open db = true →
     is_past_deadline db now = false →
     get_user_entry db uid = some previous →
       enter db now uid raw = .ok (.duplicateUser previous, db)) ∧
    (is_allowed_fob_system (normalize_system_name raw) = true →
     is_contest_open db = true →
     is_past_deadline db now = false →
     get_user_entry db uid = none →
     is_system_taken db (normalize_system_name raw) = true →
       enter db now uid raw = .ok (.systemTaken (normalize_system_name raw), db)) ∧
    (is_allowed_fob_system (normalize_system_name raw) = true →
     is_contest_open db = true →
     is_past_deadline db now = false →
     get_user_entry db uid = none →
     is_system_taken db (normalize_system_name raw) = false →
       enter db now uid raw =
         .ok (.success (normalize_system_name raw),
              { db with entries := db.entries ++
                  [{ contest_id := get_current_contest_id db, user_id := uid,
                     system_name := normalize_system_name raw,
                     entered_at := now }] })) := by
  refine ⟨?_, ?_, ?_, ?_, ?_, ?_⟩
  · intro h0
    simp [enter, h0]
  · intro h0 h1
    simp [enter, h0, h1]
  · intro h0 h1 h2
    simp [enter, h0, h1, h2]
  · intro previous h0 h1 h2 h3
    simp [enter, h0, h1, h2, h3]
  · intro h0 h1 h2 h3 h4
    simp [enter, h0, h1, h2, h3, h4]
  · intro h0 h1 h2 h3 h4
    have hA : (db.entries.any fun e =>
        e.contest_id == get_current_contest_id db &&
        e.system_name == normalize_system_name raw &&
        e.user_id != uid) = false := by
      rw [List.any_eq_false]
      intro e he hcontra
      have hTaken := List.any_eq_false.mp h4 e he
      simp only [Bool.and_eq_true, bne_iff_ne] at hcontra
      exact hTaken (by simp [hcontra.1.1, hcontra.1.2])
    have hU : (db.entries.any fun e =>
        e.contest_id == get_current_contest_id db && e.user_id == uid) = false := by
      rw [List.any_eq_false]
      intro e he hcontra
      have hFind : db.entries.find? (fun e =>
          e.contest_id == get_current_contest_id db && e.user_id == uid) = none :=
        Option.map_eq_none'.mp h3
      exact absurd hcontra (by simpa using List.find?_eq_none.mp hFind e he)
    simp [enter, enter_write_step, set_user_entry, h0, h1, h2, h3, h4, hA, hU]

theorem enter_validation_order_witness :
    enter db0 10 100 "tama " =
      .ok (.success (normalize_system_name "tama "),
           { db0 with entries := db0.entries ++
               [{ contest_id := get_current_contest_id db0, user_id := 100,
                  system_name := normalize_system_name "tama ",
                  entered_at := 10 }] }) :=
  (enter_validation_order db0 10 100 "tama ").2.2.2.2.2
    (by decide) rfl rfl rfl (by decide)

/-- The entries of contest `cid` in `db` whose stored name equals the
normalization of `fob` — the candidate pool `endcontest` scans. -/
def matchingRows (db : DB) (fob : String) : List Entry :=
  db.entries.filter fun e =>
    e.contest_id == get_current_contest_id db &&
    e.system_name == normalize_system_name fob

/-- C5: ending a contest with a valid FOB system matching no entry closes
the contest and records the system, but leaves `winner_picked` false and
the contest rows (hence `winner_user_id`/`winner_system`) untouched. -/
theorem endcontest_no_match (db : DB) (fob : String) (k : Nat)
    (hw : is_winner_picked db = false)
    (ho : is_contest_open db = true)
    (hn : ((db.entries.filter fun e =>
        e.contest_id == get_current_contest_id db).length == 0) = false)
    (ha : is_allowed_fob_system (normalize_system_name fob) = true)
    (hz : (matchingRows db fob).isEmpty = true) :
    endcontest db true fob k =
      (.noWinner (normalize_system_name fob),
       { db with settings := { db.settings with
                               contest_open := some false,
                               fob_system := some (normalize_system_name fob) } }) ∧
    is_winner_picked (endcontest db true fob k).2 = false ∧
    (endcontest db true fob k).2.contests = db.contests ∧
    (endcontest db true fob k).2.entries = db.entries := by
  have hmain : endcontest db true fob k =
      (.noWinner (normalize_system_name fob),
       { db with settings := { db.settings with
                               contest_open := some false,
                               fob_system := some (normalize_system_name fob) } }) := by
    simp only [endcontest, matchingRows] at *
    simp [hw, ho, hn, ha, hz, set_contest_open, set_fob_system]
  refine ⟨hmain, ?_, by rw [hmain], by rw [hmain]⟩
  rw [hmain]
  simpa [is_winner_picked] using hw

theorem endcontest_no_match_witness :
    endcontest db1 true "vey" 0 =
      (.noWinner (normalize_system_name "vey"),
       { db1 with settings := { db1.settings with
                                contest_open := some false,
                                fob_system := some (normalize_system_name "vey") } }) ∧
    is_winner_picked (endcontest db1 true "vey" 0).2 = false ∧
    (endcontest db1 true "vey" 0).2.contests = db1.contests ∧
    (endcontest db1 true "vey" 0).2.entries = db1.entries :=
  endcontest_no_match db1 "vey" 0 rfl rfl (by decide) (by decide) (by decide)

/-- An in-range `getD` returns an element of the list. -/
theorem getD_mem_of_lt {α : Type} {l : List α} {k : Nat} (hk : k < l.length) (d : α) :
    l.getD k d ∈ l := by
  rw [List.getD_eq_getElem?_getD, List.getElem?_eq_getElem hk]
  exact List.getElem_mem hk

/-- C2: ending a contest with a valid FOB system matching at least one
entry closes the contest, records the normalized system, sets
`winner_picked`, and writes the `k`-th matching entry's user (the model of
`random.choice` over exactly the matching entries — every index below the
number of matches is a possible pick) onto the current contest row,
leaving the entries table unchanged. -/
theorem endcontest_picks_winner (db : DB) (fob : String) (k : Nat)
    (hw : is_winner_picked db = false)
    (ho : is_contest_open db = true)
    (hn : ((db.entries.filter fun e =>
        e.contest_id == get_current_contest_id db).length == 0) = false)
    (ha : is_allowed_fob_system (normalize_system_name fob) = true)
    (hk : k < (matchingRows db fob).length) :
    endcontest db true fob k =
      (.winner ((matchingRows db fob).getD k defaultEntry).user_id
               (normalize_system_name fob),
       { db with
         settings := { db.settings with
                       contest_open := some false,
                       fob_system := some (normalize_system_name fob),
                       winner_picked := some true },
         contests := db.contests.map fun c =>
           if c.id == get_current_contest_id db then
             { c with
               winner_user_id := some ((matchingRows db fob).getD k defaultEntry).user_id,
               winner_system := some (normalize_system_name fob) }
           else c }) ∧
    (matchingRows db fob).getD k defaultEntry ∈ matchingRows db fob ∧
    (endcontest db true fob k).2.entries = db.entries := by
  have hne : (matchingRows db fob).isEmpty = false := by
    rw [List.isEmpty_eq_false_iff_exists_mem]
    exact ⟨_, getD_mem_of_lt hk defaultEntry⟩
  have hmod : k % (matchingRows db fob).length = k := Nat.mod_eq_of_lt hk
  have hmain : endcontest db true fob k =
      (.winner ((matchingRows db fob).getD k defaultEntry).user_id
               (normalize_system_name fob),
       { db with
         settings := { db.settings with
                       contest_open := some false,
                       fob_system := some (normalize_system_name fob),
                       winner_picked := some true },
         contests := db.contests.map fun c =>
           if c.id == get_current_contest_id db then
             { c with
               winner_user_id := some ((matchingRows db fob).getD k defaultEntry).user_id,
               winner_system := some (normalize_system_name fob) }
           else c }) := by
    simp only [endcontest, matchingRows] at *
    simp [hw, ho, hn, ha, hne, hmod, set_contest_open, set_fob_system, set_winner_picked]
  exact ⟨hmain, getD_mem_of_lt hk defaultEntry, by rw [hmain]⟩

theorem endcontest_picks_winner_witness :
    endcontest db1 true "tama" 0 =
      (.winner ((matchingRows db1 "tama").getD 0 defaultEntry).user_id
               (normalize_system_name "tama"),
       { db1 with
         settings := { db1.settings with
                       contest_open := some false,
                       fob_system := some (normalize_system_name "tama"),
                       winner_picked := some true },
         contests := db1.contests.map fun c =>
           if c.id == get_current_contest_id db1 then
             { c with
               winner_user_id := some ((matchingRows db1 "tama").getD 0 defaultEntry).user_id,
               winner_system := some (normalize_system_name "tama") }
           else c }) ∧
    (matchingRows db1 "tama").getD 0 defaultEntry ∈ matchingRows db1 "tama" ∧
    (endcontest db1 true "tama" 0).2.entries = db1.entries :=
  endcontest_picks_winner db1 "tama" 0 rfl rfl (by decide) (by decide) (by decide)

/-- C3 counterexample: running the entry-write step against a store in
which another user already holds the (normalized) system — the state a
race between the pre-checks and the write produces — yields the raw
storage error: the `(contest_id, system_name)` violation is *not* caught
and translated into a validation error (`enter` has no handler around
`set_user_entry`; `with_db` re-raises). -/
theorem enter_write_step_raw_error :
    enter_write_step db1 5 200 "Tama" = .error .uniqueConstraint := rfl

/-- C3 amended: the `(contest_id, user_id)` conflict is absorbed by the
upsert's `DO UPDATE` clause, so the write step returns a validation-free
success whenever no *other* user holds the system name; but when another
user's row holds it, the write step surfaces the raw
`DBError.uniqueConstraint` instead of a `DuplicateUser`/`SystemTaken`
response. -/
theorem enter_write_step_translation (db : DB) (now uid : Nat) (sys : String) :
    ((db.entries.any fun e =>
        e.contest_id == get_current_contest_id db && e.system_name == sys &&
        e.user_id != uid) = true →
      enter_write_step db now uid sys = .error .uniqueConstraint) ∧
    ((db.entries.any fun e =>
        e.contest_id == get_current_contest_id db && e.system_name == sys &&
        e.user_id != uid) = false →
      ∃ db', enter_write_step db now uid sys = .ok (.success sys, db')) := by
  constructor
  · intro h
    simp [enter_write_step, set_user_entry, h]
  · intro h
    cases hse : set_user_entry db now uid sys with
    | ok db' => exact ⟨db', by simp [enter_write_step, hse]⟩
    | error e =>
      exfalso
      by_cases h2 : (db.entries.any fun e =>
          e.contest_id == get_current_contest_id db && e.user_id == uid) = true
      · simp [set_user_entry, h, h2] at hse
      · rw [Bool.not_eq_true] at h2
        simp [set_user_entry, h, h2] at hse

theorem enter_write_step_translation_witness :
    ∃ db', enter_write_step db0 5 100 "Tama" = .ok (.success "Tama", db') :=
  (enter_write_step_translation db0 5 100 "Tama").2 (by decide)

/-- Editing a message rewrites its content in place. -/
theorem fetch_edit_list (l : List (Nat × CMsg)) (mid : Nat) (m : CMsg) :
    Channel.fetch ⟨l.map fun p => if p.1 == mid then (p.1, m) else p⟩ mid =
      (Channel.fetch ⟨l⟩ mid).map fun _ => m := by
  induction l with
  | nil => rfl
  | cons p t ih =>
    by_cases hp : (p.1 == mid) = true
    · simp [Channel.fetch, List.find?, hp]
    · rw [Bool.not_eq_true] at hp
      simpa [Channel.fetch, List.find?, hp] using ih

/-- Editing never changes the set of message ids. -/
theorem map_fst_edit (ch : Channel) (mid : Nat) (m : CMsg) :
    (ch.edit mid m).messages.map Prod.fst = ch.messages.map Prod.fst := by
  simp only [Channel.edit, List.map_map]
  refine List.map_congr_left fun p _ => ?_
  show (if p.1 == mid then (p.1, m) else p).1 = p.1
  split <;> rfl

/-- C7: a countdown tick at or past the deadline edits the tracked
message to the terminal form and clears the tracked id; with no tracked
id it changes nothing; in every case it sends no new message, and any
later elapsed tick with no tracked id is a no-op. -/
theorem countdown_tick_after_deadline (db : DB) (ch : Channel) (now freshId d : Nat)
    (hd : get_entry_deadline db = some d) (hnow : d ≤ now) :
    (∀ mid msg, get_countdown_message_id db = some mid → ch.fetch mid = some msg →
       update_countdown db ch now freshId =
         (set_countdown_message_id db none, ch.edit mid .deadlineReached) ∧
       (ch.edit mid .deadlineReached).fetch mid = some .deadlineReached) ∧
    (get_countdown_message_id db = none →
       update_countdown db ch now freshId = (db, ch)) ∧
    ((update_countdown db ch now freshId).2.messages.map Prod.fst =
       ch.messages.map Prod.fst) ∧
    (∀ (db' : DB) (ch' : Channel) (now2 fid2 : Nat),
       get_entry_deadline db' = some d → get_countdown_message_id db' = none →
       d ≤ now2 → update_countdown db' ch' now2 fid2 = (db', ch')) := by
  refine ⟨?_, ?_, ?_, ?_⟩
  · intro mid msg hm hf
    constructor
    · simp only [update_countdown, hd, hm, hf]
      rw [if_pos hnow]
    · obtain ⟨l⟩ := ch
      have := fetch_edit_list l mid CMsg.deadlineReached
      simp only [Channel.edit]
      rw [this, hf]
      rfl
  · intro hm
    simp only [update_countdown, hd, hm]
    rw [if_pos hnow]
  · cases hm : get_countdown_message_id db with
    | none =>
      simp only [update_countdown, hd, hm]
      rw [if_pos hnow]
    | some mid =>
      cases hf : ch.fetch mid with
      | none =>
        simp only [update_countdown, hd, hm, hf]
        rw [if_pos hnow]
      | some m =>
        simp only [update_countdown, hd, hm, hf]
        rw [if_pos hnow]
        exact map_fst_edit ch mid CMsg.deadlineReached
  · intro db' ch' now2 fid2 hd' hm' hn2
    simp only [update_countdown, hd', hm']
    rw [if_pos hn2]

theorem countdown_tick_after_deadline_witness :
    update_countdown dbCountdown chCountdown 60 8 =
      (set_countdown_message_id dbCountdown none,
       chCountdown.edit 7 .deadlineReached) ∧
    (chCountdown.edit 7 .deadlineReached).fetch 7 = some .deadlineReached :=
  (countdown_tick_after_deadline dbCountdown chCountdown 60 8 50 rfl (by decide)).1
    7 (.countdown 1 0 0 5 50) rfl rfl

/-- C6: with an elapsed deadline the `/enter` pipeline rejects with the
deadline message while the open flag still reads true and the store is
untouched; and no modelled operation other than the three admin
lifecycle commands (`endcontest`, `opencontest`, `newcontest`) ever
writes the `contest_open` setting. -/
theorem deadline_soft_close :
    (∀ (db : DB) (now uid : Nat) (sys : String) (d : Nat),
       get_entry_deadline db = some d → d ≤ now →
       is_contest_open db = true →
       is_allowed_fob_system (normalize_system_name sys) = true →
       enter db now uid sys = .ok (.deadlinePassed, db)) ∧
    (∀ (a : BotAction) (db : DB) (ch : Channel),
       a.isLifecycleAdmin = false →
       ((stepAction a db ch).1).settings.contest_open = db.settings.contest_open) := by
  constructor
  · intro db now uid sys d hd hnow hopen hallow
    have hpast : is_past_deadline db now = true := by
      simp [is_past_deadline, hd, hnow]
    simp [enter, hallow, hopen, hpast]
  · intro a db ch hl
    cases a with
    | enterA now uid sys =>
      simp only [stepAction]
      cases henter : enter db now uid sys with
      | ok p =>
        obtain ⟨o, db'⟩ := p
        simp only [henter]
        rw [settings_of_enter henter]
      | error e => simp only [henter]
    | tickA now fid =>
      simp only [stepAction]
      rcases update_countdown_db_shape db ch now fid with h | ⟨v, h⟩
      · rw [h]
      · rw [h]
        rfl
    | setdeadlineA isAdmin d cid =>
      simp only [stepAction, setdeadline]
      split
      · rfl
      · split <;> rfl
    | cleardeadlineA isAdmin =>
      simp only [stepAction, cleardeadline]
      split
      · rfl
      · split <;> rfl
    | deadlineModalA now d cid =>
      simp only [stepAction, deadline_modal_submit]
      split
      · rfl
      · split <;> rfl
    | setprizesA text => rfl
    | endcontestA isAdmin fob k => simp [BotAction.isLifecycleAdmin] at hl
    | opencontestA isAdmin => simp [BotAction.isLifecycleAdmin] at hl
    | newcontestA isAdmin now => simp [BotAction.isLifecycleAdmin] at hl

theorem deadline_soft_close_witness :
    enter dbDeadline 60 100 "tama " = .ok (.deadlinePassed, dbDeadline) :=
  deadline_soft_close.1 dbDeadline 60 100 "tama " 50 rfl (by decide) rfl (by decide)

/-! ## Character-level facts about the ASCII case maps -/

/-- `Char.ofNat` of a small scalar keeps its code point. -/
theorem toNat_ofNat_valid {n : Nat} (h : n < 55296) : (Char.ofNat n).toNat = n := by
  rw [Char.ofNat, dif_pos (Or.inl h)]
  rfl

theorem toNat_toUpper (c : Char) :
    (Char.toUpper c).toNat =
      if 97 ≤ c.toNat ∧ c.toNat ≤ 122 then c.toNat - 32 else c.toNat := by
  have hdef : Char.toUpper c =
      if 97 ≤ c.toNat ∧ c.toNat ≤ 122 then Char.ofNat (c.toNat - 32) else c := rfl
  rw [hdef]
  split
  · next h => exact toNat_ofNat_valid (by omega)
  · rfl

theorem toNat_toLower (c : Char) :
    (Char.toLower c).toNat =
      if 65 ≤ c.toNat ∧ c.toNat ≤ 90 then c.toNat + 32 else c.toNat := by
  have hdef : Char.toLower c =
      if 65 ≤ c.toNat ∧ c.toNat ≤ 90 then Char.ofNat (c.toNat + 32) else c := rfl
  rw [hdef]
  split
  · next h => exact toNat_ofNat_valid (by omega)
  · rfl

/-- Lean core's `Char.toUpper`, zeta-reduced. -/
theorem toUpper_def (c : Char) :
    Char.toUpper c =
      if 97 ≤ c.toNat ∧ c.toNat ≤ 122 then Char.ofNat (c.toNat - 32) else c := rfl

theorem toLower_def (c : Char) :
    Char.toLower c =
      if 65 ≤ c.toNat ∧ c.toNat ≤ 90 then Char.ofNat (c.toNat + 32) else c := rfl

theorem pyCased_toUpper (c : Char) : pyCased (Char.toUpper c) = pyCased c := by
  simp only [pyCased, toNat_toUpper]
  split
  · next h => exact decide_eq_decide.mpr (by omega)
  · rfl

theorem pyCased_toLower (c : Char) : pyCased (Char.toLower c) = pyCased c := by
  simp only [pyCased, toNat_toLower]
  split
  · next h => exact decide_eq_decide.mpr (by omega)
  · rfl

theorem pyIsSpace_toUpper (c : Char) : pyIsSpace (Char.toUpper c) = pyIsSpace c := by
  simp only [pyIsSpace, toNat_toUpper]
  split
  · next h => exact decide_eq_decide.mpr (by omega)
  · rfl

theorem pyIsSpace_toLower (c : Char) : pyIsSpace (Char.toLower c) = pyIsSpace c := by
  simp only [pyIsSpace, toNat_toLower]
  split
  · next h => exact decide_eq_decide.mpr (by omega)
  · rfl

theorem toUpper_toUpper (c : Char) :
    Char.toUpper (Char.toUpper c) = Char.toUpper c := by
  have h := toNat_toUpper c
  have hne : ¬(97 ≤ (Char.toUpper c).toNat ∧ (Char.toUpper c).toNat ≤ 122) := by
    by_cases hc : 97 ≤ c.toNat ∧ c.toNat ≤ 122
    · rw [if_pos hc] at h; omega
    · rw [if_neg hc] at h; omega
  rw [toUpper_def (Char.toUpper c), if_neg hne]

theorem toLower_toLower (c : Char) :
    Char.toLower (Char.toLower c) = Char.toLower c := by
  have h := toNat_toLower c
  have hne : ¬(65 ≤ (Char.toLower c).toNat ∧ (Char.toLower c).toNat ≤ 90) := by
    by_cases hc : 65 ≤ c.toNat ∧ c.toNat ≤ 90
    · rw [if_pos hc] at h; omega
    · rw [if_neg hc] at h; omega
  rw [toLower_def (Char.toLower c), if_neg hne]

theorem toUpper_toLower (c : Char) :
    Char.toUpper (Char.toLower c) = Char.toUpper c := by
  by_cases hc : 65 ≤ c.toNat ∧ c.toNat ≤ 90
  · have ht : (Char.ofNat (c.toNat + 32)).toNat = c.toNat + 32 :=
      toNat_ofNat_valid (by omega)
    rw [toLower_def, if_pos hc, toUpper_def (Char.ofNat (c.toNat + 32)),
        if_pos (by rw [ht]; omega), ht]
    have h32 : c.toNat + 32 - 32 = c.toNat := by omega
    rw [h32, Char.ofNat_toNat, toUpper_def, if_neg (by omega)]
  · rw [toLower_def, if_neg hc]

/-- The "previous char was cased" state after scanning a chunk. -/
def casedEnd (b : Bool) : List Char → Bool
  | [] => b
  | c :: cs => casedEnd (pyCased c) cs

theorem pyTitleAux_append (xs : List Char) :
    ∀ (b : Bool) (ys : List Char),
      pyTitleAux b (xs ++ ys) = pyTitleAux b xs ++ pyTitleAux (casedEnd b xs) ys := by
  induction xs with
  | nil => intro b ys; rfl
  | cons c cs ih =>
    intro b ys
    simp only [List.cons_append, pyTitleAux, casedEnd, List.append_eq, ih]

theorem pyTitleAux_space (b : Bool) (ys : List Char) :
    pyTitleAux b (' ' :: ys) = ' ' :: pyTitleAux false ys := by
  cases b <;> rfl

theorem length_pyTitleAux (w : List Char) : ∀ b, (pyTitleAux b w).length = w.length := by
  induction w with
  | nil => intro b; rfl
  | cons c cs ih => intro b; simp [pyTitleAux, ih]

theorem pyTitle_joinSpace (ws : List (List Char)) :
    pyTitleAux false (joinSpace ws) = joinSpace (ws.map (pyTitleAux false)) := by
  induction ws with
  | nil => rfl
  | cons w t ih =>
    cases t with
    | nil => rfl
    | cons w2 t2 =>
      show pyTitleAux false (w ++ ' ' :: joinSpace (w2 :: t2)) =
        pyTitleAux false w ++ ' ' :: joinSpace ((w2 :: t2).map (pyTitleAux false))
      rw [pyTitleAux_append, pyTitleAux_space, ih]

theorem spacefree_pyTitleAux (w : List Char) :
    ∀ b, (∀ c ∈ w, pyIsSpace c = false) →
      ∀ c ∈ pyTitleAux b w, pyIsSpace c = false := by
  induction w with
  | nil => intro b _ c hc; cases hc
  | cons a as ih =>
    intro b hw c hc
    rcases List.mem_cons.mp hc with rfl | hc2
    · cases b
      · rw [if_neg Bool.false_ne_true, pyIsSpace_toUpper]
        exact hw a (List.mem_cons_self a as)
      · rw [if_pos rfl, pyIsSpace_toLower]
        exact hw a (List.mem_cons_self a as)
    · exact ih (pyCased a) (fun x hx => hw x (List.mem_cons_of_mem a hx)) c hc2

theorem pyTitleAux_idem (w : List Char) :
    ∀ b, pyTitleAux b (pyTitleAux b w) = pyTitleAux b w := by
  induction w with
  | nil => intro b; rfl
  | cons c cs ih =>
    intro b
    cases b
    · show pyTitleAux false (Char.toUpper c :: pyTitleAux (pyCased c) cs) = _
      simp only [pyTitleAux, if_neg Bool.false_ne_true, toUpper_toUpper,
                 pyCased_toUpper, ih]
    · show pyTitleAux true (Char.toLower c :: pyTitleAux (pyCased c) cs) = _
      simp only [pyTitleAux, if_pos rfl, toLower_toLower, pyCased_toLower, ih]
      rfl

theorem pyTitleAux_congr_lower (w1 : List Char) :
    ∀ (w2 : List Char) (b : Bool), w1.map Char.toLower = w2.map Char.toLower →
      pyTitleAux b w1 = pyTitleAux b w2 := by
  induction w1 with
  | nil =>
    intro w2 b h
    cases w2 with
    | nil => rfl
    | cons c cs => simp at h
  | cons c cs ih =>
    intro w2 b h
    cases w2 with
    | nil => simp at h
    | cons d ds =>
      simp only [List.map_cons, List.cons.injEq] at h
      obtain ⟨hcd, htail⟩ := h
      have hup : Char.toUpper c = Char.toUpper d := by
        rw [← toUpper_toLower c, hcd, toUpper_toLower d]
      have hlo : Char.toLower c = Char.toLower d := hcd
      have hcased : pyCased c = pyCased d := by
        rw [← pyCased_toLower c, hcd, pyCased_toLower d]
      simp only [pyTitleAux, hup, hlo, hcased, ih ds (pyCased d) htail]

theorem pySplitAux_chunk (w : List Char) :
    ∀ (rest acc : List Char), (∀ c ∈ w, pyIsSpace c = false) →
      pySplitAux (w ++ rest) acc = pySplitAux rest (w.reverse ++ acc) := by
  induction w with
  | nil => intro rest acc _; rfl
  | cons c cs ih =>
    intro rest acc hw
    have hc : pyIsSpace c = false := hw c (List.mem_cons_self c cs)
    show pySplitAux (c :: (cs ++ rest)) acc = _
    simp only [pySplitAux, hc, Bool.false_eq_true, if_false]
    rw [ih rest (c :: acc) (fun x hx => hw x (List.mem_cons_of_mem c hx))]
    simp

theorem pySplit_joinSpace (ws : List (List Char)) :
    (∀ w ∈ ws, w ≠ [] ∧ ∀ c ∈ w, pyIsSpace c = false) →
      pySplit (joinSpace ws) = ws := by
  induction ws with
  | nil => intro _; rfl
  | cons w t ih =>
    intro hws
    obtain ⟨hne, hsf⟩ := hws w (List.mem_cons_self w t)
    cases t with
    | nil =>
      show pySplitAux (joinSpace [w]) [] = [w]
      have : joinSpace [w] = w ++ [] := by simp [joinSpace]
      rw [this, pySplitAux_chunk w [] [] hsf]
      simp only [pySplitAux, List.append_nil, List.isEmpty_eq_true,
                 List.reverse_eq_nil_iff]
      rw [if_neg hne]
      simp
    | cons w2 t2 =>
      show pySplitAux (w ++ ' ' :: joinSpace (w2 :: t2)) [] = w :: w2 :: t2
      rw [pySplitAux_chunk w _ [] hsf]
      show pySplitAux (' ' :: joinSpace (w2 :: t2)) (w.reverse ++ []) = _
      have hsp : pyIsSpace ' ' = true := rfl
      simp only [pySplitAux, hsp, if_true, List.append_nil,
                 List.isEmpty_eq_true, List.reverse_eq_nil_iff]
      rw [if_neg hne]
      have := ih (fun x hx => hws x (List.mem_cons_of_mem w hx))
      simp only [pySplit] at this
      rw [this]
      simp

theorem pySplitAux_words (s : List Char) :
    ∀ acc, (∀ c ∈ acc, pyIsSpace c = false) →
      ∀ w ∈ pySplitAux s acc, w ≠ [] ∧ ∀ c ∈ w, pyIsSpace c = false := by
  induction s with
  | nil =>
    intro acc hacc w hw
    by_cases he : acc.isEmpty = true
    · simp only [pySplitAux, he, if_true] at hw
      cases hw
    · simp only [pySplitAux, he, Bool.false_eq_true, if_false] at hw
      rw [Bool.not_eq_true, List.isEmpty_eq_false] at he
      rcases List.mem_singleton.mp hw with rfl
      refine ⟨by simpa using he, fun c hc => hacc c (List.mem_reverse.mp hc)⟩
  | cons a as ih =>
    intro acc hacc w hw
    by_cases ha : pyIsSpace a = true
    · simp only [pySplitAux, ha, if_true] at hw
      by_cases he : acc.isEmpty = true
      · simp only [he, if_true] at hw
        exact ih [] (by intro c hc; cases hc) w hw
      · simp only [he, Bool.false_eq_true, if_false] at hw
        rcases List.mem_cons.mp hw with rfl | hw2
        · rw [Bool.not_eq_true, List.isEmpty_eq_false] at he
          refine ⟨by simpa using he, fun c hc => hacc c (List.mem_reverse.mp hc)⟩
        · exact ih [] (by intro c hc; cases hc) w hw2
    · rw [Bool.not_eq_true] at ha
      simp only [pySplitAux, ha, Bool.false_eq_true, if_false] at hw
      refine ih (a :: acc) ?_ w hw
      intro c hc
      rcases List.mem_cons.mp hc with rfl | hc2
      · exact ha
      · exact hacc c hc2

/-- The words produced by `pySplit` are nonempty and whitespace-free. -/
theorem pySplit_words (s : List Char) :
    ∀ w ∈ pySplit s, w ≠ [] ∧ ∀ c ∈ w, pyIsSpace c = false :=
  pySplitAux_words s [] (by intro c hc; cases hc)

theorem pySplitAux_dropWhile (s : List Char) :
    pySplitAux (s.dropWhile pyIsSpace) [] = pySplitAux s [] := by
  induction s with
  | nil => rfl
  | cons c cs ih =>
    by_cases hc : pyIsSpace c = true
    · rw [List.dropWhile_cons_of_pos hc]
      rw [ih]
      show _ = pySplitAux (c :: cs) []
      simp [pySplitAux, hc]
    · rw [List.dropWhile_cons_of_neg (by simp [hc])]

theorem pySplitAux_all_space (extra : List Char) :
    ∀ acc, (∀ c ∈ extra, pyIsSpace c = true) →
      pySplitAux extra acc = if acc.isEmpty then [] else [acc.reverse] := by
  induction extra with
  | nil => intro acc _; rfl
  | cons e es ih =>
    intro acc hsp
    have he : pyIsSpace e = true := hsp e (List.mem_cons_self e es)
    have hes : pySplitAux es [] = [] := by
      rw [ih [] (fun c hc => hsp c (List.mem_cons_of_mem e hc))]
      rfl
    show pySplitAux (e :: es) acc = _
    simp only [pySplitAux, he, if_true]
    by_cases ha : acc.isEmpty = true
    · simp [ha, hes]
    · simp only [ha, Bool.false_eq_true, if_false, hes]

theorem pySplitAux_trailing_space (s : List Char) :
    ∀ (extra acc : List Char), (∀ c ∈ extra, pyIsSpace c = true) →
      pySplitAux (s ++ extra) acc = pySplitAux s acc := by
  induction s with
  | nil =>
    intro extra acc hsp
    rw [List.nil_append, pySplitAux_all_space extra acc hsp]
    rfl
  | cons c cs ih =>
    intro extra acc hsp
    show pySplitAux (c :: (cs ++ extra)) acc = pySplitAux (c :: cs) acc
    by_cases hc : pyIsSpace c = true
    · simp only [pySplitAux, hc, if_true, ih extra [] hsp]
    · rw [Bool.not_eq_true] at hc
      simp only [pySplitAux, hc, Bool.false_eq_true, if_false, ih extra (c :: acc) hsp]

/-- `strip` before `split` is redundant: they extract the same words. -/
theorem pySplit_pyStrip (s : List Char) : pySplit (pyStrip s) = pySplit s := by
  unfold pySplit pyStrip
  set t := s.dropWhile pyIsSpace with ht
  have hdecomp : (t.reverse.dropWhile pyIsSpace).reverse ++
      (t.reverse.takeWhile pyIsSpace).reverse = t := by
    rw [← List.reverse_append, List.takeWhile_append_dropWhile, List.reverse_reverse]
  have hsp : ∀ c ∈ (t.reverse.takeWhile pyIsSpace).reverse, pyIsSpace c = true := by
    intro c hc
    exact List.mem_takeWhile_imp (List.mem_reverse.mp hc)
  calc pySplitAux (t.reverse.dropWhile pyIsSpace).reverse []
      = pySplitAux ((t.reverse.dropWhile pyIsSpace).reverse ++
          (t.reverse.takeWhile pyIsSpace).reverse) [] := by
        rw [pySplitAux_trailing_space _ _ [] hsp]
    _ = pySplitAux t [] := by rw [hdecomp]
    _ = pySplitAux s [] := pySplitAux_dropWhile s

/-- `normalize_system_name` splits into words and title-cases each. -/
theorem normalize_eq_words (s : String) :
    normalize_system_name s =
      ⟨joinSpace ((pySplit s.data).map (pyTitleAux false))⟩ := by
  unfold normalize_system_name pyTitle
  rw [pySplit_pyStrip, pyTitle_joinSpace]

theorem map_title_congr (ws1 : List (List Char)) :
    ∀ ws2 : List (List Char),
      ws1.map (List.map Char.toLower) = ws2.map (List.map Char.toLower) →
      ws1.map (pyTitleAux false) = ws2.map (pyTitleAux false) := by
  induction ws1 with
  | nil =>
    intro ws2 h
    cases ws2 with
    | nil => rfl
    | cons w t => simp at h
  | cons w t ih =>
    intro ws2 h
    cases ws2 with
    | nil => simp at h
    | cons w2 t2 =>
      simp only [List.map_cons, List.cons.injEq] at h
      simp only [List.map_cons, List.cons.injEq]
      exact ⟨pyTitleAux_congr_lower w w2 false h.1, ih t2 h.2⟩

/-- The title-cased words of a split are themselves nonempty and
whitespace-free. -/
theorem titled_words_ok (s : List Char) :
    ∀ w ∈ (pySplit s).map (pyTitleAux false),
      w ≠ [] ∧ ∀ c ∈ w, pyIsSpace c = false := by
  intro w hw
  rcases List.mem_map.mp hw with ⟨w0, hw0, rfl⟩
  obtain ⟨hne, hsf⟩ := pySplit_words s w0 hw0
  refine ⟨?_, spacefree_pyTitleAux w0 false hsf⟩
  intro hcon
  apply hne
  have hlen := length_pyTitleAux w0 false
  rw [hcon] at hlen
  exact List.length_eq_zero.mp hlen.symm

/-- C9: `normalize_system_name` is idempotent on every string, and any
two strings whose whitespace-separated words agree up to letter case
(leading/trailing/internal whitespace runs and casing may differ freely)
normalize to the same string. -/
theorem normalize_idempotent_case_ws_insensitive :
    (∀ s : String,
       normalize_system_name (normalize_system_name s) = normalize_system_name s) ∧
    (∀ x y : String,
       (pySplit x.data).map (List.map Char.toLower) =
         (pySplit y.data).map (List.map Char.toLower) →
       normalize_system_name x = normalize_system_name y) := by
  constructor
  · intro s
    rw [normalize_eq_words s, normalize_eq_words
          ⟨joinSpace ((pySplit s.data).map (pyTitleAux false))⟩]
    have hdata : (String.mk (joinSpace ((pySplit s.data).map (pyTitleAux false)))).data
        = joinSpace ((pySplit s.data).map (pyTitleAux false)) := rfl
    rw [hdata, pySplit_joinSpace _ (titled_words_ok s.data), List.map_map]
    show String.mk _ = String.mk _
    congr 1
    congr 1
    refine List.map_congr_left fun w _ => ?_
    exact pyTitleAux_idem w false
  · intro x y hxy
    rw [normalize_eq_words x, normalize_eq_words y]
    show String.mk _ = String.mk _
    congr 1
    congr 1
    exact map_title_congr _ _ hxy

theorem normalize_idempotent_case_ws_insensitive_witness :
    normalize_system_name (normalize_system_name "  old  MAN   star ") =
      normalize_system_name "  old  MAN   star " ∧
    normalize_system_name "tama " = normalize_system_name "  TAMA" :=
  ⟨normalize_idempotent_case_ws_insensitive.1 "  old  MAN   star ",
   normalize_idempotent_case_ws_insensitive.2 "tama " "  TAMA" (by decide)⟩

theorem newcontest_fresh_contest_witness :
    (newcontest db1 true 5).1 = .started (nextContestId db1) ∧
    (∀ c ∈ db1.contests, c.id < nextContestId db1) ∧
    (newcontest db1 true 5).2.contests =
      db1.contests ++ [{ id := nextContestId db1, opened_at := 5,
                         winner_user_id := none, winner_system := none }] ∧
    (newcontest db1 true 5).2.entries = db1.entries ∧
    (newcontest db1 true 5).2.settings =
      { current_contest_id := some (nextContestId db1),
        contest_open := some true,
        winner_picked := some false,
        fob_system := some "",
        entry_deadline := none,
        countdown_message_id := none,
        countdown_channel_id := none,
        prizes_text := db1.settings.prizes_text } :=
  newcontest_fresh_contest db1 5
